import Mathlib

/-!
# Verification of the interview session core of `interview-ace`

This file gives a shallow embedding, in Lean 4, of the interview session
state machine of the `interview-ace` repository: the question-set /
answer-buffer navigation protocol of the interview pages, the
question-timer hook, the speech-to-text hook, the question-generation
insert/retry path, and the two Supabase edge functions
(`generate-questions`, `evaluate-interview`).  Theorems about these
definitions settle the behavioural properties stated in the project's
specification.

Conventions of the embedding:
* JavaScript `string` fields that may be `undefined`/`null` become
  `Option String`; the JS truthiness test `!s` on a string is modelled as
  "`none` or the empty string".
* Database and AI-gateway calls are modelled by explicit oracles (the
  result an external call would have produced); `try/catch` blocks that
  swallow errors become total functions.
* `Math.round` on the (nonnegative) scores is `⌊x + 1/2⌋`.
-/

namespace InterviewAce

/-- Model of JS `String.prototype.startsWith`, computed on the character
list so that concrete instances reduce in the kernel. -/
def strStartsWith (s pre : String) : Bool :=
  List.isPrefixOf pre.data s.data

/-- Model of JS `String.prototype.trim` (whitespace stripped from both
ends), computed on the character list. -/
def jsTrim (s : String) : String :=
  ⟨((s.data.dropWhile Char.isWhitespace).reverse.dropWhile Char.isWhitespace).reverse⟩

/-- Model of JS `Math.round` for the score arithmetic of
`evaluate-interview` (arguments there are nonnegative). -/
def jsRound (x : ℚ) : ℤ :=
  ⌊x + 1/2⌋

/-- Index lemma for `List.mapIdx`, used throughout the navigation proofs. -/
theorem get?_mapIdx {α β : Type} (f : Nat → α → β) (l : List α) (i : Nat) :
    (l.mapIdx f).get? i = (l.get? i).map (f i) := by
  rw [List.mapIdx_eq_enum_map]
  simp only [List.get?_eq_getElem?, List.getElem?_map, List.getElem?_enum]
  cases h : l[i]? <;> simp [Function.uncurry]

/-!
## Data model

`Question` mirrors the `Question` interface of the interview pages
(`src/pages/HRInterview.tsx` and variants): an optional identity (absent
until a store insert assigns one, or a `temp-N` placeholder after a failed
insert), the question fields returned by the generator, and the user's
accumulated answer.
-/

structure Question where
  id : Option String
  question_type : String
  difficulty : String
  question_text : String
  expected_answer : Option String
  user_answer : Option String
  deriving Repr, DecidableEq

/-!
## Persistence adapter

`saveAnswerToDB` embeds the function of the same name in the HR interview
page:

```js
const saveAnswerToDB = async (questionId, answerText) => {
  if (!questionId || questionId.startsWith('temp-')) return;
  try {
    await supabase.from('interview_questions')
      .update({ user_answer: answerText }).eq('id', questionId);
  } catch (err) { console.error('Failed to save answer to DB:', err); }
};
```

The result records the update requests actually issued over the network
(`networkCalls`, keyed by question id) and whether the promise resolves
successfully (`success`; always true, since errors are caught).
-/

structure SaveResult where
  networkCalls : List (String × String)
  success : Bool
  deriving Repr, DecidableEq

def saveAnswerToDB (questionId : Option String) (answerText : String) : SaveResult :=
  match questionId with
  | none => { networkCalls := [], success := true }
  | some qid =>
    if qid = "" || strStartsWith qid "temp-" then
      { networkCalls := [], success := true }
    else
      { networkCalls := [(qid, answerText)], success := true }

/-!
## Session navigation (HR interview page)

`updateQuestionAnswer` embeds

```js
const updateQuestionAnswer = useCallback((index, newAnswer) => {
  setQuestions(prev => prev.map((q, i) =>
    i === index ? { ...q, user_answer: newAnswer } : q));
}, []);
```

and the navigation handlers `nextQuestion` / `prevQuestion` /
`goToQuestion` embed the corresponding handlers of the HR interview page.
The session state carries the in-memory question set, the current index,
the answer buffer (`answer` state, edited by the textarea), and a log of
the answer updates accepted by the store.  Each navigation op carries a
`dbOk` flag: whether the store accepted the update issued by that
navigation (a rejected update has no effect on the in-memory state, since
`saveAnswerToDB` swallows errors).
-/

def updateQuestionAnswer (qs : List Question) (index : Nat) (newAnswer : String) :
    List Question :=
  qs.mapIdx fun i q => if i = index then { q with user_answer := some newAnswer } else q

structure SessionState where
  questions : List Question
  currentIndex : Nat
  answer : String
  db : List (String × String)
  deriving Repr, DecidableEq

/-- `questionsRef.current[idx]?.user_answer || ''` — the value loaded into
the answer buffer on arriving at `idx`. -/
def loadAnswer (qs : List Question) (idx : Nat) : String :=
  ((qs.get? idx).bind Question.user_answer).getD ""

/-- Record the network calls of one `saveAnswerToDB` invocation in the
store log when the store accepts them. -/
def commitSave (db : List (String × String)) (r : SaveResult) (dbOk : Bool) :
    List (String × String) :=
  if dbOk then db ++ r.networkCalls else db

inductive NavOp where
  | next (dbOk : Bool)
  | prev (dbOk : Bool)
  | goTo (idx : Nat) (dbOk : Bool)
  | edit (text : String)
  deriving Repr, DecidableEq

/-- `true` for the three navigation handlers, `false` for a textarea edit. -/
def NavOp.isNav : NavOp → Bool
  | .next _ => true
  | .prev _ => true
  | .goTo _ _ => true
  | .edit _ => false

def navStep (s : SessionState) : NavOp → SessionState
  | .next dbOk =>
    let qs := updateQuestionAnswer s.questions s.currentIndex s.answer
    let db := commitSave s.db
      (saveAnswerToDB ((s.questions.get? s.currentIndex).bind Question.id) s.answer) dbOk
    if s.currentIndex < s.questions.length - 1 then
      let nextIdx := s.currentIndex + 1
      { questions := qs, currentIndex := nextIdx, answer := loadAnswer qs nextIdx, db := db }
    else
      { s with questions := qs, db := db }
  | .prev dbOk =>
    let qs := updateQuestionAnswer s.questions s.currentIndex s.answer
    let db := commitSave s.db
      (saveAnswerToDB ((s.questions.get? s.currentIndex).bind Question.id) s.answer) dbOk
    if 0 < s.currentIndex then
      let prevIdx := s.currentIndex - 1
      { questions := qs, currentIndex := prevIdx, answer := loadAnswer qs prevIdx, db := db }
    else
      { s with questions := qs, db := db }
  | .goTo idx dbOk =>
    let qs := updateQuestionAnswer s.questions s.currentIndex s.answer
    let db := commitSave s.db
      (saveAnswerToDB ((s.questions.get? s.currentIndex).bind Question.id) s.answer) dbOk
    { questions := qs, currentIndex := idx, answer := loadAnswer qs idx, db := db }
  | .edit text => { s with answer := text }

def navRun (s : SessionState) : List NavOp → SessionState :=
  List.foldl navStep s

theorem length_updateQuestionAnswer (qs : List Question) (i : Nat) (a : String) :
    (updateQuestionAnswer qs i a).length = qs.length := by
  simp [updateQuestionAnswer]

theorem get?_updateQuestionAnswer (qs : List Question) (i j : Nat) (a : String) :
    (updateQuestionAnswer qs i a).get? j =
      (qs.get? j).map fun q => if j = i then { q with user_answer := some a } else q := by
  simp [updateQuestionAnswer, get?_mapIdx]

theorem get?_updateQuestionAnswer_ne (qs : List Question) {i j : Nat} (a : String)
    (h : j ≠ i) : (updateQuestionAnswer qs i a).get? j = qs.get? j := by
  rw [get?_updateQuestionAnswer]
  cases hq : qs.get? j <;> simp [h]

theorem navStep_length (s : SessionState) (op : NavOp) :
    (navStep s op).questions.length = s.questions.length := by
  cases op <;> simp only [navStep] <;> (try split) <;>
    simp [length_updateQuestionAnswer]

theorem navRun_length (s : SessionState) (ops : List NavOp) :
    (navRun s ops).questions.length = s.questions.length := by
  induction ops generalizing s with
  | nil => rfl
  | cons op rest ih => rw [navRun, List.foldl_cons, ← navRun, ih, navStep_length]

/-- Navigation never changes a question's identity: placeholder and real
ids assigned at generation time stay fixed for the rest of the session. -/
theorem map_id_updateQuestionAnswer (qs : List Question) (i : Nat) (a : String) :
    (updateQuestionAnswer qs i a).map Question.id = qs.map Question.id := by
  apply List.ext_get?
  intro j
  have h := get?_updateQuestionAnswer qs i j a
  simp only [List.get?_eq_getElem?] at h ⊢
  simp only [List.getElem?_map, h]
  cases qs[j]? with
  | none => rfl
  | some q => by_cases hj : j = i <;> simp [hj]

theorem navStep_ids (s : SessionState) (op : NavOp) :
    (navStep s op).questions.map Question.id = s.questions.map Question.id := by
  cases op <;> simp only [navStep] <;> (try split) <;>
    simp [map_id_updateQuestionAnswer]

theorem navRun_ids (s : SessionState) (ops : List NavOp) :
    (navRun s ops).questions.map Question.id = s.questions.map Question.id := by
  induction ops generalizing s with
  | nil => rfl
  | cons op rest ih => rw [navRun, List.foldl_cons, ← navRun, ih, navStep_ids]

/-!
### The no-loss invariant

After leaving index `i` with buffer contents `b`, every further
navigation (no textarea edit) keeps the in-memory answer of question `i`
equal to `b`, and whenever the session is back at index `i` the buffer
shows `b`.
-/

/-- Invariant tracked through a navigation sequence: the stored answer of
the distinguished index is `b`, and the buffer shows `b` whenever that
index is current. -/
def NoLoss (i : Nat) (b : String) (t : SessionState) : Prop :=
  ((t.questions.get? i).bind Question.user_answer = some b) ∧
    (t.currentIndex = i → t.answer = b)

theorem loadAnswer_of_stored {i : Nat} {b : String} {qs : List Question}
    (h : (qs.get? i).bind Question.user_answer = some b) :
    loadAnswer qs i = b := by
  unfold loadAnswer
  rw [h]
  rfl

theorem noLoss_step {i : Nat} {b : String} {t : SessionState} {op : NavOp}
    (hnav : op.isNav = true) (hlt : i < t.questions.length) (h : NoLoss i b t) :
    NoLoss i b (navStep t op) := by
  obtain ⟨hstore, hbuf⟩ := h
  have hqs : ((updateQuestionAnswer t.questions t.currentIndex t.answer).get? i).bind
      Question.user_answer = some b := by
    by_cases hcur : i = t.currentIndex
    · subst hcur
      have hb : t.answer = b := hbuf rfl
      rw [get?_updateQuestionAnswer, List.get?_eq_get hlt]
      simp [hb]
    · rw [get?_updateQuestionAnswer_ne _ _ hcur]
      exact hstore
  cases op with
  | edit text => simp [NavOp.isNav] at hnav
  | next dbOk =>
    simp only [navStep]
    split
    · refine ⟨hqs, fun hidx => ?_⟩
      have hidx' : t.currentIndex + 1 = i := hidx
      subst hidx'
      exact loadAnswer_of_stored hqs
    · exact ⟨hqs, fun hidx => hbuf hidx⟩
  | prev dbOk =>
    simp only [navStep]
    split
    · refine ⟨hqs, fun hidx => ?_⟩
      have hidx' : t.currentIndex - 1 = i := hidx
      subst hidx'
      exact loadAnswer_of_stored hqs
    · exact ⟨hqs, fun hidx => hbuf hidx⟩
  | goTo idx dbOk =>
    refine ⟨hqs, fun hidx => ?_⟩
    have hidx' : idx = i := hidx
    subst hidx'
    exact loadAnswer_of_stored hqs

/-- Leaving the current index by any navigation op establishes the
invariant for that index and the buffer contents at the moment of
leaving. -/
theorem noLoss_base {t : SessionState} {op : NavOp} (hnav : op.isNav = true)
    (hlt : t.currentIndex < t.questions.length) :
    NoLoss t.currentIndex t.answer (navStep t op) := by
  have hqs : ((updateQuestionAnswer t.questions t.currentIndex t.answer).get?
      t.currentIndex).bind Question.user_answer = some t.answer := by
    rw [get?_updateQuestionAnswer, List.get?_eq_get hlt]
    simp
  cases op with
  | edit text => simp [NavOp.isNav] at hnav
  | next dbOk =>
    simp only [navStep]
    split
    · refine ⟨hqs, fun hidx => ?_⟩
      have hidx' : t.currentIndex + 1 = t.currentIndex := hidx
      omega
    · exact ⟨hqs, fun _ => rfl⟩
  | prev dbOk =>
    simp only [navStep]
    split
    · rename_i hpos
      refine ⟨hqs, fun hidx => ?_⟩
      have hidx' : t.currentIndex - 1 = t.currentIndex := hidx
      omega
    · exact ⟨hqs, fun _ => rfl⟩
  | goTo idx dbOk =>
    refine ⟨hqs, fun hidx => ?_⟩
    have hidx' : idx = t.currentIndex := hidx
    subst hidx'
    exact loadAnswer_of_stored hqs

theorem noLoss_run {i : Nat} {b : String} {t : SessionState} {ops : List NavOp}
    (hnav : ∀ o ∈ ops, o.isNav = true) (hlt : i < t.questions.length)
    (h : NoLoss i b t) : NoLoss i b (navRun t ops) := by
  induction ops generalizing t with
  | nil => exact h
  | cons op rest ih =>
    rw [navRun, List.foldl_cons, ← navRun]
    refine ih (fun o ho => hnav o (List.mem_cons_of_mem _ ho)) ?_ ?_
    · rw [navStep_length]; exact hlt
    · exact noLoss_step (hnav op (List.mem_cons_self _ _)) hlt h

/-!
## Session navigation (Interview / Auth pages, non-HR flows)

The non-HR interview pages (`src/pages/Interview.tsx`, and the interview
page stored in `src/pages/Auth.tsx`) keep the answer buffer in
`selectedAnswer` / `code` state and persist on navigation with
`saveAnswer`, but never write the buffer back into the in-memory
`questions` array, and `prevQuestion` performs no save at all.
-/

/-- JS truthiness of a nullable string field (`if (nextQ.user_answer) ...`). -/
def jsTruthyStr : Option String → Bool
  | some s => s ≠ ""
  | none => false

structure PageQuestion where
  id : Option String
  question_type : String
  difficulty : String
  question_text : String
  expected_answer : Option String
  options : Option (List String)
  user_answer : Option String
  user_code : Option String
  deriving Repr, DecidableEq

/-- The single-column update issued by the non-HR `saveAnswer`. -/
inductive PageUpdate where
  | userCode (code : String)
  | userAnswer (answer : Option String)
  deriving Repr, DecidableEq

structure PageSessionState where
  questions : List PageQuestion
  currentIndex : Nat
  selectedAnswer : Option String
  code : String
  db : List (String × PageUpdate)
  deriving Repr, DecidableEq

/-- `saveAnswer` of the non-HR pages: skipped when the current question has
no (truthy) id; otherwise a single-row update of `user_code` for coding
questions and of `user_answer` (possibly null) otherwise. -/
def pageSaveAnswer (s : PageSessionState) : List (String × PageUpdate) :=
  match s.questions.get? s.currentIndex with
  | none => []
  | some q =>
    match q.id with
    | none => []
    | some qid =>
      if qid = "" then []
      else if q.question_type = "coding" then [(qid, .userCode s.code)]
      else [(qid, .userAnswer s.selectedAnswer)]

/-- `nextQuestion` of the non-HR pages: persists the buffer (best effort),
advances, resets the buffers, and reloads them from the *unmodified*
in-memory array. `template` models `languageMap[selectedLanguage]?.template || ''`. -/
def pageNextQuestion (s : PageSessionState) (dbOk : Bool) (template : String) :
    PageSessionState :=
  let db := if dbOk then s.db ++ pageSaveAnswer s else s.db
  if s.currentIndex < s.questions.length - 1 then
    let nextIdx := s.currentIndex + 1
    match s.questions.get? nextIdx with
    | some nextQ =>
      let code := if jsTruthyStr nextQ.user_code then nextQ.user_code.getD ""
                  else if nextQ.question_type = "coding" then template else s.code
      let sel := if jsTruthyStr nextQ.user_answer then nextQ.user_answer else none
      { s with currentIndex := nextIdx, selectedAnswer := sel, code := code, db := db }
    | none => { s with db := db }
  else { s with db := db }

/-- `prevQuestion` of the non-HR pages: no save of any kind, then the same
reset-and-reload of the buffers. -/
def pagePrevQuestion (s : PageSessionState) (template : String) : PageSessionState :=
  if 0 < s.currentIndex then
    let prevIdx := s.currentIndex - 1
    match s.questions.get? prevIdx with
    | some prevQ =>
      let code := if jsTruthyStr prevQ.user_code then prevQ.user_code.getD ""
                  else if prevQ.question_type = "coding" then template else s.code
      let sel := if jsTruthyStr prevQ.user_answer then prevQ.user_answer else none
      { s with currentIndex := prevIdx, selectedAnswer := sel, code := code }
    | none => s
  else s

/-!
## Timer subsystem (`src/hooks/useQuestionTimer.ts`)

State: seconds on the current question (`questionTime`), total seconds
(`totalTime`), the per-index cumulative map (`questionTimes`, a JS object
with missing keys read as 0), and the current index ref.  A `tick` fires
once per second; `switchToQuestion` folds the current question's time into
the map and resets the per-question counter.
-/

/-- `{...prev, [k]: (prev[k] || 0) + v}` on an association list with unique
keys: add `v` at key `k`, inserting the key if absent. -/
def addTime : List (Nat × Nat) → Nat → Nat → List (Nat × Nat)
  | [], k, v => [(k, v)]
  | (k', v') :: rest, k, v =>
    if k = k' then (k, v' + v) :: rest else (k', v') :: addTime rest k v

/-- `prev[k] || 0`. -/
def lookupTime : List (Nat × Nat) → Nat → Nat
  | [], _ => 0
  | (k', v') :: rest, k => if k = k' then v' else lookupTime rest k

def sumTimes (m : List (Nat × Nat)) : Nat :=
  (m.map Prod.snd).sum

structure TimerState where
  questionTime : Nat
  totalTime : Nat
  questionTimes : List (Nat × Nat)
  currentIndex : Nat
  deriving Repr, DecidableEq

def timerInit (initialIndex : Nat) : TimerState :=
  { questionTime := 0, totalTime := 0, questionTimes := [], currentIndex := initialIndex }

inductive TimerOp where
  | tick
  | switch (idx : Nat)
  deriving Repr, DecidableEq

/-- One interval tick, or one `switchToQuestion(newIndex)` call. -/
def timerStep (s : TimerState) : TimerOp → TimerState
  | .tick =>
    { s with questionTime := s.questionTime + 1, totalTime := s.totalTime + 1 }
  | .switch idx =>
    { s with questionTimes := addTime s.questionTimes s.currentIndex s.questionTime,
             currentIndex := idx, questionTime := 0 }

def timerRun (s : TimerState) : List TimerOp → TimerState :=
  List.foldl timerStep s

theorem sumTimes_addTime (m : List (Nat × Nat)) (k v : Nat) :
    sumTimes (addTime m k v) = sumTimes m + v := by
  induction m with
  | nil => simp [addTime, sumTimes]
  | cons p rest ih =>
    obtain ⟨k', v'⟩ := p
    by_cases hk : k = k' <;> simp [addTime, sumTimes, hk] <;>
      simp [sumTimes] at ih <;> omega

theorem lookupTime_addTime_self (m : List (Nat × Nat)) (k v : Nat) :
    lookupTime (addTime m k v) k = lookupTime m k + v := by
  induction m with
  | nil => simp [addTime, lookupTime]
  | cons p rest ih =>
    obtain ⟨k', v'⟩ := p
    by_cases hk : k = k' <;> simp [addTime, lookupTime, hk, ih]

/-- The balance invariant: cumulative per-question times plus the current
in-progress segment account exactly for the total elapsed time. -/
def TimerBalanced (s : TimerState) : Prop :=
  sumTimes s.questionTimes + s.questionTime = s.totalTime

theorem timerBalanced_step {s : TimerState} (h : TimerBalanced s) (op : TimerOp) :
    TimerBalanced (timerStep s op) := by
  cases op with
  | tick => unfold TimerBalanced at h ⊢; simp [timerStep]; omega
  | switch idx =>
    unfold TimerBalanced at h ⊢
    simp [timerStep, sumTimes_addTime]
    omega

theorem timerBalanced_run (s : TimerState) (h : TimerBalanced s) (ops : List TimerOp) :
    TimerBalanced (timerRun s ops) := by
  induction ops generalizing s with
  | nil => exact h
  | cons op rest ih =>
    rw [timerRun, List.foldl_cons, ← timerRun]
    exact ih _ (timerBalanced_step h op)

theorem timerStep_total_mono (s : TimerState) (op : TimerOp) :
    s.totalTime ≤ (timerStep s op).totalTime := by
  cases op <;> simp [timerStep]

theorem timerRun_total_mono (s : TimerState) (ops : List TimerOp) :
    s.totalTime ≤ (timerRun s ops).totalTime := by
  induction ops generalizing s with
  | nil => exact le_refl _
  | cons op rest ih =>
    rw [timerRun, List.foldl_cons, ← timerRun]
    exact le_trans (timerStep_total_mono s op) (ih _)

/-!
## Voice capture (`src/hooks/useSpeechToText.ts`)

Within one recognition session the `onresult` handler keeps a closure
variable `finalTranscript`; for every finalized result it appends the
result's text plus a space and invokes the registered callback with
`finalTranscript.trim()`:

```js
if (result.isFinal) {
  finalTranscript += result[0].transcript + ' ';
  onTranscriptRef.current?.(finalTranscript.trim());
}
```

`processFinalResults` threads `finalTranscript` through a sequence of
finalized results and collects the payloads handed to the callback, in
order.
-/

def processFinalResults (finalTranscript : String) :
    List String → String × List String
  | [] => (finalTranscript, [])
  | r :: rest =>
    let ft := finalTranscript ++ r ++ " "
    let (ftEnd, outs) := processFinalResults ft rest
    (ftEnd, jsTrim ft :: outs)

/-- The callback registered by the HR page:

```js
const handleVoiceTranscript = useCallback((text) => {
  setAnswer(prev => {
    const updated = prev ? prev + ' ' + text : text;
    updateQuestionAnswer(currentIndexRef.current, updated);
    return updated;
  });
}, [updateQuestionAnswer]);
``` -/
def handleVoiceTranscript (prev text : String) : String :=
  if prev ≠ "" then prev ++ " " ++ text else text

/-- Answer buffer contents after the voice callback has consumed every
emitted payload in order. -/
def voiceBufferAfter (initial : String) (finals : List String) : String :=
  ((processFinalResults "" finals).2).foldl handleVoiceTranscript initial

/-!
## Question generation edge function (`supabase/functions/generate-questions`)

Only the post-parse normalization matters for the session core: every
non-coding/non-hr question must end up with exactly 4 options.  A missing
or non-array upstream `options` field is modelled as `none`.
-/

structure GenQuestion where
  question_type : String
  skill_name : Option String
  difficulty : String
  question_text : String
  expected_answer : Option String
  options : Option (List String)
  deriving Repr, DecidableEq

/-- ```js
questions = questions.map((q) => {
  if (q.question_type !== 'coding' && q.question_type !== 'hr') {
    if (!Array.isArray(q.options) || q.options.length !== 4) {
      q.options = ['Option A', 'Option B', 'Option C', 'Option D'];
    }
  }
  return q;
});
``` -/
def ensureOptions (q : GenQuestion) : GenQuestion :=
  if q.question_type ≠ "coding" ∧ q.question_type ≠ "hr" then
    if q.options.map List.length ≠ some 4 then
      { q with options := some ["Option A", "Option B", "Option C", "Option D"] }
    else q
  else q

def normalizeQuestions (qs : List GenQuestion) : List GenQuestion :=
  qs.map ensureOptions

/-!
## Batched question insert with retry (interview pages)

Both HR-page variants in the repository build `questionsToInsert` from
the generated questions, attempt one batched insert, and on failure wait
a fixed backoff and retry exactly once; if the retry also fails each
question is kept in memory under the placeholder id `temp-<index>`:

```js
const { data: savedQuestions, error: insertError } = await supabase
  .from('interview_questions').insert(questionsToInsert).select();
if (insertError) {
  await new Promise(resolve => setTimeout(resolve, 1500));   // 1000 in the older variant
  const { data: retryQuestions, error: retryError } = await supabase
    .from('interview_questions').insert(questionsToInsert).select();
  if (retryError) {
    const tempQuestions = data.questions.map((q, idx) => ({ ...q, id: `temp-${idx}` }));
    setQuestions(tempQuestions);
  } else if (retryQuestions && retryQuestions.length > 0) {
    setQuestions(retryQuestions);
  }
} else if (savedQuestions && savedQuestions.length > 0) {
  setQuestions(savedQuestions);
} else { ... }
```

The store's reply to each attempt is an oracle: `none` models an
`insertError`, `some rows` a successful insert returning `rows`.  The
outcome records the resulting question set, the number of insert attempts
issued, and the backoff delays (ms) awaited.
-/

structure InsertOutcome where
  questions : List Question
  attempts : Nat
  delaysMs : List Nat
  deriving Repr, DecidableEq

def tempTagged (generated : List Question) : List Question :=
  generated.mapIdx fun idx q => { q with id := some ("temp-" ++ toString idx) }

/-- Insert path of the HR page variant with voice/timer support
(1500 ms backoff; an error-free but empty insert reply also falls back to
placeholder ids). `prior` is the `questions` state before the flow runs. -/
def hrGenerateInsert (prior generated : List Question)
    (first retry : Option (List Question)) : InsertOutcome :=
  match first with
  | some savedQuestions =>
    { questions := if savedQuestions.length > 0 then savedQuestions else tempTagged generated,
      attempts := 1, delaysMs := [] }
  | none =>
    match retry with
    | some retryQuestions =>
      { questions := if retryQuestions.length > 0 then retryQuestions else prior,
        attempts := 2, delaysMs := [1500] }
    | none =>
      { questions := tempTagged generated, attempts := 2, delaysMs := [1500] }

/-- Insert path of the older HR page variant (1000 ms backoff; an
error-free but empty insert reply keeps the generated questions with no
ids). -/
def legacyGenerateInsert (prior generated : List Question)
    (first retry : Option (List Question)) : InsertOutcome :=
  match first with
  | some savedQuestions =>
    { questions := if savedQuestions.length > 0 then savedQuestions else generated,
      attempts := 1, delaysMs := [] }
  | none =>
    match retry with
    | some retryQuestions =>
      { questions := if retryQuestions.length > 0 then retryQuestions else prior,
        attempts := 2, delaysMs := [1000] }
    | none =>
      { questions := tempTagged generated, attempts := 2, delaysMs := [1000] }

/-- Insert path of the non-HR pages (`Interview.tsx`, and the interview
page in `Auth.tsx`): a single insert whose error is not even inspected
(`const { data: savedQuestions } = await ...insert(...).select()`); on
failure there is no retry, no backoff, and the generated questions keep
no ids at all. -/
def pageGenerateInsert (generated : List Question)
    (first : Option (List Question)) : InsertOutcome :=
  match first with
  | some savedQuestions =>
    { questions := savedQuestions, attempts := 1, delaysMs := [] }
  | none =>
    { questions := generated, attempts := 1, delaysMs := [] }

/-!
## Evaluation edge function (`supabase/functions/evaluate-interview`)

The handler destructures **only** `interviewId` from the request body
(`const { interviewId } = await req.json();`); the questions to grade are
always re-fetched from the store by interview id.  If no rows are found it
replies gracefully with `error: 'no_questions'` and zero scores.
Otherwise the first loop accumulates `maxScore` from the per-difficulty
points and fires one AI evaluation per question; the second loop
accumulates `totalScore`, counting 0 for a question whose AI call failed
or whose reply was unparseable (`evaluation = null`).  The AI replies are
an oracle `ai : index → Option AIEval`; the overall-feedback AI call is
an oracle string.
-/

structure AIEval where
  score : ℚ
  is_correct : Bool
  deriving DecidableEq

structure EvalResponse where
  totalScore : ℤ
  maxScore : ℤ
  feedback : String
  error : Option String
  deriving DecidableEq

/-- `{ easy: 10, medium: 20, hard: 30 }[difficulty] || 20`. -/
def pointsForDifficulty (difficulty : String) : ℕ :=
  if difficulty = "easy" then 10
  else if difficulty = "medium" then 20
  else if difficulty = "hard" then 30
  else 20

/-- `evaluation ? Math.round((evaluation.score / 100) * maxPoints) : 0`. -/
def questionScore (evaluation : Option AIEval) (maxPoints : ℕ) : ℤ :=
  match evaluation with
  | some e => jsRound (e.score / 100 * maxPoints)
  | none => 0

def noQuestionsFeedback : String :=
  "No questions were found for this interview. Please start a new interview session."

def evalHandler (dbQuestions : List PageQuestion) (ai : Nat → Option AIEval)
    (overallFeedback : String) : EvalResponse :=
  if dbQuestions.length = 0 then
    { totalScore := 0, maxScore := 0, feedback := noQuestionsFeedback,
      error := some "no_questions" }
  else
    let maxScore := dbQuestions.foldl
      (fun acc q => acc + (pointsForDifficulty q.difficulty : ℤ)) 0
    let evaluations := dbQuestions.mapIdx fun i q => (ai i, pointsForDifficulty q.difficulty)
    let totalScore := evaluations.foldl (fun acc e => acc + questionScore e.1 e.2) 0
    { totalScore := totalScore, maxScore := maxScore, feedback := overallFeedback,
      error := none }

/-- One entry of the `questionsData` fallback payload assembled by the HR
page's `finishInterview`. -/
structure EvalPayloadQuestion where
  question_type : String
  difficulty : String
  question_text : String
  expected_answer : String
  user_answer : String
  user_code : String
  deriving Repr, DecidableEq

structure EvalRequest where
  interviewId : String
  questionsData : Option (List EvalPayloadQuestion)
  deriving DecidableEq

/-- The full edge function on a request: fetch by `req.interviewId` and
grade.  `req.questionsData` is not consulted anywhere. -/
def evaluateInterview (req : EvalRequest) (store : String → List PageQuestion)
    (ai : Nat → Option AIEval) (overallFeedback : String) : EvalResponse :=
  evalHandler (store req.interviewId) ai overallFeedback

/-!
## `finishInterview`

`hrFinishInterview` embeds the finish sequence of the voice-enabled HR
page (the page stops speech capture, flushes the buffer into a finalized
in-memory view, re-saves or batch-inserts, calls the evaluator with the
`questionsData` fallback payload, branches on `no_questions`, and only on
the success path writes the interview record and stops the media stream).
`pageFinishInterview` embeds the finish sequence of the non-HR pages and
of the older HR variant, which send only the interview id and treat every
2xx evaluator reply as a completed interview.
-/

structure InterviewUpdate where
  status : String
  completedAtSet : Bool
  total_score : ℤ
  max_score : ℤ
  feedback : String
  deriving DecidableEq

structure FinishOutcome where
  payload : List EvalPayloadQuestion
  interviewUpdate : Option InterviewUpdate
  answerSaves : List (String × String)
  insertAttempted : Bool
  questionsAfter : List Question
  speechStopped : Bool
  streamStopped : Bool
  errorToast : Option String
  successToast : Bool
  navigatedToResults : Bool
  exceptionPropagated : Bool
  deriving DecidableEq

/-- ```js
const finalQuestions = questionsRef.current.map((q, i) => ({
  ...q, user_answer: i === currentIndex ? answer : (q.user_answer || ''),
}));
``` -/
def hrFinalQuestions (qs : List Question) (currentIndex : Nat) (answer : String) :
    List Question :=
  qs.mapIdx fun i q =>
    { q with user_answer := some (if i = currentIndex then answer else q.user_answer.getD "") }

/-- `q.id && !q.id.startsWith('temp-')`. -/
def hasRealId (q : Question) : Bool :=
  match q.id with
  | some s => s ≠ "" && !(strStartsWith s "temp-")
  | none => false

def hrQuestionsPayload (finalQuestions : List Question) : List EvalPayloadQuestion :=
  finalQuestions.map fun q =>
    { question_type := q.question_type, difficulty := q.difficulty,
      question_text := q.question_text, expected_answer := q.expected_answer.getD "",
      user_answer := q.user_answer.getD "", user_code := "" }

/-- The finish sequence of the voice-enabled HR page.  `insertReply` is
the store's reply to the last-chance batched insert (consulted only when
no question has a real id); `evalFn` is the `evaluate-interview`
invocation, `.error` modelling a non-2xx reply (thrown and caught). -/
def hrFinishInterview (qs : List Question) (currentIndex : Nat) (answer : String)
    (streamHeld : Bool) (insertReply : Option (List Question))
    (evalFn : EvalRequest → Except Unit EvalResponse) (interviewId : String) :
    FinishOutcome :=
  let finalQuestions := hrFinalQuestions qs currentIndex answer
  let savedIds := finalQuestions.filter hasRealId
  let answerSaves :=
    if savedIds.length > 0 then
      (savedIds.map fun q => saveAnswerToDB q.id (q.user_answer.getD "")).foldl
        (fun acc r => acc ++ r.networkCalls) []
    else []
  let insertAttempted := (savedIds.length == 0) && (finalQuestions.length != 0)
  let questionsAfter :=
    if insertAttempted then
      match insertReply with
      | some saved => saved
      | none => updateQuestionAnswer qs currentIndex answer
    else updateQuestionAnswer qs currentIndex answer
  let payload := hrQuestionsPayload finalQuestions
  match evalFn { interviewId := interviewId, questionsData := some payload } with
  | .error _ =>
    { payload := payload, interviewUpdate := none, answerSaves := answerSaves,
      insertAttempted := insertAttempted, questionsAfter := questionsAfter,
      speechStopped := true, streamStopped := false,
      errorToast := some "Failed to submit interview. Please try again.",
      successToast := false, navigatedToResults := false, exceptionPropagated := false }
  | .ok data =>
    if data.error = some "no_questions" then
      { payload := payload, interviewUpdate := none, answerSaves := answerSaves,
        insertAttempted := insertAttempted, questionsAfter := questionsAfter,
        speechStopped := true, streamStopped := false,
        errorToast := some "No questions could be evaluated. Please try starting a new interview.",
        successToast := false, navigatedToResults := false, exceptionPropagated := false }
    else
      { payload := payload,
        interviewUpdate := some
          { status := "completed", completedAtSet := true, total_score := data.totalScore,
            max_score := data.maxScore, feedback := data.feedback },
        answerSaves := answerSaves, insertAttempted := insertAttempted,
        questionsAfter := questionsAfter,
        speechStopped := true, streamStopped := streamHeld, errorToast := none,
        successToast := true, navigatedToResults := true, exceptionPropagated := false }

/-- The finish sequence of the non-HR pages and the older HR variant:
`{ interviewId }` only; any 2xx evaluator reply — including the graceful
`no_questions` one — leads straight to the completed-interview write. -/
def pageFinishInterview (evalReply : Except Unit EvalResponse) :
    Option InterviewUpdate × Option String :=
  match evalReply with
  | .error _ => (none, some "Failed to submit interview. Please try again.")
  | .ok data =>
    (some { status := "completed", completedAtSet := true, total_score := data.totalScore,
            max_score := data.maxScore, feedback := data.feedback }, none)

/-!
## Auxiliary fold lemmas for the score aggregation
-/

theorem foldl_add_eq_sum {α : Type} (f : α → ℤ) (l : List α) (init : ℤ) :
    l.foldl (fun acc x => acc + f x) init = init + (l.map f).sum := by
  induction l generalizing init with
  | nil => simp
  | cons x rest ih =>
    rw [List.foldl_cons, ih, List.map_cons, List.sum_cons]
    ring

theorem sum_map_mapIdx {α β : Type} (f : Nat → α → β) (g : β → ℤ) (l : List α) :
    ((l.mapIdx f).map g).sum = (l.mapIdx fun i a => g (f i a)).sum := by
  simp only [List.mapIdx_eq_enum_map, List.map_map]
  congr 1

/-!
## Claim theorems
-/

/-- Claim C7: total elapsed seconds is non-decreasing and never reset
across any sequence of timer operations; current-question elapsed seconds
resets to 0 exactly on `switchToQuestion` (a tick only increments it), the
previous index's elapsed time is added into the per-index cumulative map
(revisiting accumulates rather than overwrites), and at any observation
point the sum of all per-question cumulative times plus the current
in-progress segment equals total elapsed seconds. -/
theorem timer_monotone_reset_accumulate_balance :
    (∀ (init : Nat) (ops more : List TimerOp),
      (timerRun (timerInit init) ops).totalTime ≤
        (timerRun (timerInit init) (ops ++ more)).totalTime) ∧
    (∀ (s : TimerState) (idx : Nat), (timerStep s (.switch idx)).questionTime = 0) ∧
    (∀ (s : TimerState), (timerStep s .tick).questionTime = s.questionTime + 1) ∧
    (∀ (s : TimerState) (idx : Nat),
      lookupTime (timerStep s (.switch idx)).questionTimes s.currentIndex =
        lookupTime s.questionTimes s.currentIndex + s.questionTime) ∧
    (∀ (init : Nat) (ops : List TimerOp),
      sumTimes (timerRun (timerInit init) ops).questionTimes +
          (timerRun (timerInit init) ops).questionTime =
        (timerRun (timerInit init) ops).totalTime) := by
  refine ⟨?_, ?_, ?_, ?_, ?_⟩
  · intro init ops more
    rw [timerRun, List.foldl_append, ← timerRun, ← timerRun]
    exact timerRun_total_mono _ more
  · intro s idx; rfl
  · intro s; rfl
  · intro s idx
    exact lookupTime_addTime_self s.questionTimes s.currentIndex s.questionTime
  · intro init ops
    exact timerBalanced_run _ (by rfl) ops

/-- Claim C8: for a question whose identity is absent (or empty, which JS
treats as falsy) or carries the `temp-` placeholder tag, `saveAnswerToDB`
issues no network call and reports success; and no network call it ever
issues is keyed by a placeholder (or empty) identity. -/
theorem placeholder_identity_skip :
    (∀ (qid : Option String) (a : String),
      (qid = none ∨ ∃ s, qid = some s ∧ strStartsWith s "temp-" = true) →
      saveAnswerToDB qid a = { networkCalls := [], success := true }) ∧
    (∀ (qid : Option String) (a k v : String),
      (k, v) ∈ (saveAnswerToDB qid a).networkCalls →
      strStartsWith k "temp-" = false ∧ k ≠ "") ∧
    (∀ (qid : Option String) (a : String), (saveAnswerToDB qid a).success = true) := by
  refine ⟨?_, ?_, ?_⟩
  · rintro qid a (rfl | ⟨s, rfl, hs⟩)
    · rfl
    · simp [saveAnswerToDB, hs]
  · intro qid a k v hmem
    match qid with
    | none => simp [saveAnswerToDB] at hmem
    | some s =>
      simp only [saveAnswerToDB] at hmem
      split at hmem
      · simp at hmem
      · rename_i hcond
        simp only [List.mem_singleton, Prod.mk.injEq] at hmem
        obtain ⟨rfl, rfl⟩ := hmem
        simp only [Bool.or_eq_true, decide_eq_true_eq] at hcond
        push_neg at hcond
        exact ⟨by simpa using hcond.2, by simpa using hcond.1⟩
  · intro qid a
    match qid with
    | none => rfl
    | some s => simp only [saveAnswerToDB]; split <;> rfl

/-- Witness for C8 at the placeholder identity `temp-0` and at the real
identity `q1`. -/
theorem placeholder_identity_skip_witness :
    (((some "temp-0" : Option String) = none ∨
        ∃ s, (some "temp-0" : Option String) = some s ∧ strStartsWith s "temp-" = true) ∧
      saveAnswerToDB (some "temp-0") "my answer" = { networkCalls := [], success := true }) ∧
    (("q1", "my answer") ∈ (saveAnswerToDB (some "q1") "my answer").networkCalls ∧
      strStartsWith "q1" "temp-" = false ∧ "q1" ≠ "") :=
  ⟨⟨Or.inr ⟨"temp-0", rfl, by decide⟩,
      placeholder_identity_skip.1 (some "temp-0") "my answer"
        (Or.inr ⟨"temp-0", rfl, by decide⟩)⟩,
    ⟨by decide,
      placeholder_identity_skip.2.1 (some "q1") "my answer" "q1" "my answer" (by decide)⟩⟩

/-- Claim C2 (amended): in the HR interview flow, after leaving index `i`
with buffer contents `b` by any navigation op, every further sequence of
`next`/`prev`/`goTo` calls (regardless of which persistence writes the
store accepts) keeps the in-memory answer of question `i` equal to `b`,
and whenever the session is back at index `i` the buffer again shows `b`:
the in-memory question set is authoritative. -/
theorem hr_no_loss_navigation (s : SessionState)
    (h : s.currentIndex < s.questions.length)
    (op : NavOp) (hop : op.isNav = true) (ops : List NavOp)
    (hops : ∀ o ∈ ops, o.isNav = true)
    (hback : (navRun (navStep s op) ops).currentIndex = s.currentIndex) :
    (navRun (navStep s op) ops).answer = s.answer ∧
    loadAnswer (navRun (navStep s op) ops).questions s.currentIndex = s.answer := by
  have hbase : NoLoss s.currentIndex s.answer (navStep s op) := noLoss_base hop h
  have hlen : s.currentIndex < (navStep s op).questions.length := by
    rw [navStep_length]; exact h
  have hrun : NoLoss s.currentIndex s.answer (navRun (navStep s op) ops) :=
    noLoss_run hops hlen hbase
  exact ⟨hrun.2 hback, loadAnswer_of_stored hrun.1⟩

def hrNavExampleQuestion (i : String) (a : Option String) : Question :=
  { id := some i, question_type := "hr", difficulty := "medium",
    question_text := "Tell me about a project.", expected_answer := some "STAR",
    user_answer := a }

def hrNavExample : SessionState :=
  { questions := [hrNavExampleQuestion "temp-0" none, hrNavExampleQuestion "temp-1" none],
    currentIndex := 0, answer := "my draft answer", db := [] }

/-- Witness for the amended C2: a concrete two-question HR session whose
store rejects the first write; leaving question 0 and coming back still
shows the draft. -/
theorem hr_no_loss_navigation_witness :
    (hrNavExample.currentIndex < hrNavExample.questions.length ∧
      NavOp.isNav (.next false) = true ∧
      (∀ o ∈ [NavOp.prev true], o.isNav = true) ∧
      (navRun (navStep hrNavExample (.next false)) [.prev true]).currentIndex =
        hrNavExample.currentIndex) ∧
    (navRun (navStep hrNavExample (.next false)) [.prev true]).answer =
      hrNavExample.answer ∧
    loadAnswer (navRun (navStep hrNavExample (.next false)) [.prev true]).questions
      hrNavExample.currentIndex = hrNavExample.answer :=
  ⟨⟨by decide, by decide, by decide, by decide⟩,
    hr_no_loss_navigation hrNavExample (by decide) (.next false) (by decide)
      [.prev true] (by decide) (by decide)⟩

def pageNavExampleQuestion (i : String) : PageQuestion :=
  { id := some i, question_type := "aptitude", difficulty := "medium",
    question_text := "2+2?", expected_answer := some "4",
    options := some ["3", "4", "5", "6"], user_answer := none, user_code := none }

def pageNavExample : PageSessionState :=
  { questions := [pageNavExampleQuestion "q1", pageNavExampleQuestion "q2"],
    currentIndex := 0, selectedAnswer := some "4", code := "", db := [] }

/-- Counterexample to C2 as stated: in the non-HR interview flows the
selected answer visible before pressing Next (`"4"`) is gone after
navigating back — even though the persistence write for question `q1`
succeeded — because navigation never writes the buffer back into the
in-memory question set. -/
theorem page_navigation_loses_answer :
    pageNavExample.selectedAnswer = some "4" ∧
    (pageNextQuestion pageNavExample true "").db = [("q1", .userAnswer (some "4"))] ∧
    (pagePrevQuestion (pageNextQuestion pageNavExample true "") "").currentIndex = 0 ∧
    (pagePrevQuestion (pageNextQuestion pageNavExample true "") "").selectedAnswer = none := by
  decide

/-- Claim C3: within one recognition session the hook's `onresult` handler
hands the callback `finalTranscript.trim()` — the full accumulated
transcript — not the newly finalized increment.  Delivering finalized
results "hello" then "world" from an empty buffer therefore emits
`["hello", "hello world"]` and leaves the buffer equal to
"hello hello world", not "hello world" as the claim states. -/
theorem voice_emits_accumulated_transcript :
    (processFinalResults "" ["hello", "world"]).2 = ["hello", "hello world"] ∧
    voiceBufferAfter "" ["hello", "world"] = "hello hello world" ∧
    voiceBufferAfter "" ["hello", "world"] ≠ "hello world" := by
  decide

/-- Claim C9: any generated non-coding/non-hr question whose upstream
`options` field is missing (or not an array) or not of length 4 is
normalized by the generate-questions function to exactly 4 options, the
4 generic placeholder strings; a well-formed upstream `options` list is
kept; and the normalized record is what the question list consumed by the
session contains. -/
theorem options_integrity (q : GenQuestion)
    (hc : q.question_type ≠ "coding") (hh : q.question_type ≠ "hr") :
    (ensureOptions q).options.map List.length = some 4 ∧
    (q.options.map List.length ≠ some 4 →
      (ensureOptions q).options = some ["Option A", "Option B", "Option C", "Option D"]) ∧
    (q.options.map List.length = some 4 → ensureOptions q = q) ∧
    (∀ qs : List GenQuestion, q ∈ qs → ensureOptions q ∈ normalizeQuestions qs) := by
  refine ⟨?_, ?_, ?_, ?_⟩
  · unfold ensureOptions
    rw [if_pos ⟨hc, hh⟩]
    split
    · rfl
    · rename_i hlen
      push_neg at hlen
      simpa using hlen
  · intro hbad
    unfold ensureOptions
    rw [if_pos ⟨hc, hh⟩, if_pos hbad]
  · intro hgood
    unfold ensureOptions
    rw [if_pos ⟨hc, hh⟩, if_neg (by simp [hgood])]
  · intro qs hmem
    exact List.mem_map_of_mem ensureOptions hmem

def badOptionsQuestion : GenQuestion :=
  { question_type := "aptitude", skill_name := none, difficulty := "medium",
    question_text := "Pick one.", expected_answer := some "B", options := none }

/-- Witness for C9 at a generated aptitude question whose upstream
`options` field is missing. -/
theorem options_integrity_witness :
    (badOptionsQuestion.question_type ≠ "coding" ∧
      badOptionsQuestion.question_type ≠ "hr" ∧
      badOptionsQuestion.options.map List.length ≠ some 4) ∧
    (ensureOptions badOptionsQuestion).options.map List.length = some 4 ∧
    (ensureOptions badOptionsQuestion).options =
      some ["Option A", "Option B", "Option C", "Option D"] :=
  ⟨⟨by decide, by decide, by decide⟩,
    (options_integrity badOptionsQuestion (by decide) (by decide)).1,
    (options_integrity badOptionsQuestion (by decide) (by decide)).2.1 (by decide)⟩

def generatedExample : List Question :=
  [ { id := none, question_type := "hr", difficulty := "easy",
      question_text := "Q0", expected_answer := some "E0", user_answer := none },
    { id := none, question_type := "hr", difficulty := "medium",
      question_text := "Q1", expected_answer := some "E1", user_answer := none },
    { id := none, question_type := "hr", difficulty := "medium",
      question_text := "Q2", expected_answer := some "E2", user_answer := none },
    { id := none, question_type := "hr", difficulty := "hard",
      question_text := "Q3", expected_answer := some "E3", user_answer := none } ]

/-- Counterexample to C6 as stated: the batched question insert of the
non-HR interview pages does not retry at all on failure — a single
attempt, no backoff — and on failure the generated questions keep no
identity (no `temp-N` placeholders are synthesized). -/
theorem page_insert_no_retry :
    (pageGenerateInsert generatedExample none).attempts = 1 ∧
    (pageGenerateInsert generatedExample none).delaysMs = [] ∧
    (pageGenerateInsert generatedExample none).questions.map Question.id =
      [none, none, none, none] := by
  decide

/-- Claim C6 (amended): in the two HR-page variants, a failed batch insert
is retried exactly once after a fixed backoff — 1500 ms in the
voice-enabled variant, 1000 ms in the older variant — and a successful
first insert is never retried; if the retry also fails, every question of
the batch receives the placeholder identity `temp-<index>`, deterministic
in its array position, and session navigation never changes any question
identity afterwards.  The non-HR pages attempt the insert once, with no
retry, no backoff, and no placeholder identities. -/
theorem insert_retry_and_placeholders (prior generated : List Question) :
    (∀ retry, (hrGenerateInsert prior generated none retry).attempts = 2 ∧
      (hrGenerateInsert prior generated none retry).delaysMs = [1500]) ∧
    (∀ saved retry, (hrGenerateInsert prior generated (some saved) retry).attempts = 1 ∧
      (hrGenerateInsert prior generated (some saved) retry).delaysMs = []) ∧
    (∀ retry, (legacyGenerateInsert prior generated none retry).attempts = 2 ∧
      (legacyGenerateInsert prior generated none retry).delaysMs = [1000]) ∧
    (∀ saved retry, (legacyGenerateInsert prior generated (some saved) retry).attempts = 1 ∧
      (legacyGenerateInsert prior generated (some saved) retry).delaysMs = []) ∧
    (1500 > 1000) ∧
    (∀ i, i < generated.length →
      ((hrGenerateInsert prior generated none none).questions.get? i).map Question.id =
        some (some ("temp-" ++ toString i)) ∧
      ((legacyGenerateInsert prior generated none none).questions.get? i).map Question.id =
        some (some ("temp-" ++ toString i))) ∧
    (∀ (s : SessionState) (ops : List NavOp),
      (navRun s ops).questions.map Question.id = s.questions.map Question.id) ∧
    (∀ first, (pageGenerateInsert generated first).attempts = 1 ∧
      (pageGenerateInsert generated first).delaysMs = []) := by
  refine ⟨fun retry => by cases retry <;> exact ⟨rfl, rfl⟩, fun saved retry => ⟨rfl, rfl⟩,
    fun retry => by cases retry <;> exact ⟨rfl, rfl⟩, fun saved retry => ⟨rfl, rfl⟩,
    by norm_num, ?_, navRun_ids, ?_⟩
  · intro i hi
    have htag : ∀ j, j < generated.length →
        ((tempTagged generated).get? j).map Question.id =
          some (some ("temp-" ++ toString j)) := by
      intro j hj
      unfold tempTagged
      rw [get?_mapIdx, List.get?_eq_get hj]
      rfl
    exact ⟨htag i hi, htag i hi⟩
  · intro first
    cases first <;> exact ⟨rfl, rfl⟩

/-- Witness for the amended C6: the concrete 4-question batch under a
double insert failure gets `temp-0` as the identity of its first
question, in both HR-page variants. -/
theorem insert_retry_and_placeholders_witness :
    (0 < generatedExample.length) ∧
    ((hrGenerateInsert [] generatedExample none none).questions.get? 0).map Question.id =
      some (some "temp-0") ∧
    ((legacyGenerateInsert [] generatedExample none none).questions.get? 0).map Question.id =
      some (some "temp-0") :=
  ⟨by decide,
    ((insert_retry_and_placeholders [] generatedExample).2.2.2.2.2.1 0 (by decide)).1,
    ((insert_retry_and_placeholders [] generatedExample).2.2.2.2.2.1 0 (by decide)).2⟩

/-- Claim C10: for every evaluated interview, `maxScore` is the sum over
all fetched questions of 10/20/30 points for easy/medium/hard difficulty
(20 points when the difficulty is none of these), and `totalScore` is the
sum of `round(score / 100 × points)` over the per-question AI
evaluations, a failed or unparseable evaluation contributing 0 while its
points still count toward `maxScore`. -/
theorem scoring_aggregation (dbQuestions : List PageQuestion)
    (ai : Nat → Option AIEval) (fb : String) (h : dbQuestions ≠ []) :
    (evalHandler dbQuestions ai fb).maxScore =
      (dbQuestions.map fun q => (pointsForDifficulty q.difficulty : ℤ)).sum ∧
    (evalHandler dbQuestions ai fb).totalScore =
      (dbQuestions.mapIdx fun i q =>
        questionScore (ai i) (pointsForDifficulty q.difficulty)).sum ∧
    pointsForDifficulty "easy" = 10 ∧ pointsForDifficulty "medium" = 20 ∧
    pointsForDifficulty "hard" = 30 ∧
    (∀ d, d ≠ "easy" → d ≠ "medium" → d ≠ "hard" → pointsForDifficulty d = 20) ∧
    (∀ p, questionScore none p = 0) ∧
    (∀ e p, questionScore (some e) p = jsRound (e.score / 100 * p)) := by
  have hne : ¬(dbQuestions.length = 0) := by
    simpa [List.length_eq_zero] using h
  refine ⟨?_, ?_, rfl, rfl, rfl, ?_, fun p => rfl, fun e p => rfl⟩
  · unfold evalHandler
    rw [if_neg hne]
    simp only
    rw [foldl_add_eq_sum]
    ring
  · unfold evalHandler
    rw [if_neg hne]
    simp only
    rw [foldl_add_eq_sum, sum_map_mapIdx]
    ring
  · intro d h1 h2 h3
    simp [pointsForDifficulty, h1, h2, h3]

def scoringExample : List PageQuestion :=
  [ pageNavExampleQuestion "q1", pageNavExampleQuestion "q2",
    pageNavExampleQuestion "q3", pageNavExampleQuestion "q4" ]

def scoringAI : Nat → Option AIEval := fun _ => some { score := 100, is_correct := true }

/-- Witness for C10 at a concrete 4-question interview (all medium
difficulty) with every AI evaluation returning score 100. -/
theorem scoring_aggregation_witness :
    scoringExample ≠ [] ∧
    (evalHandler scoringExample scoringAI "fb").maxScore =
      (scoringExample.map fun q => (pointsForDifficulty q.difficulty : ℤ)).sum ∧
    (evalHandler scoringExample scoringAI "fb").totalScore =
      (scoringExample.mapIdx fun i q =>
        questionScore (scoringAI i) (pointsForDifficulty q.difficulty)).sum :=
  ⟨by decide, (scoring_aggregation scoringExample scoringAI "fb" (by decide)).1,
    (scoring_aggregation scoringExample scoringAI "fb" (by decide)).2.1⟩

/-- Claim C4 (amended): in the voice-enabled HR flow, a `no_questions`
evaluator reply leaves the interview record untouched and tells the user
to start a new interview, while any other 2xx evaluator reply writes
status=completed, completed_at, total_score, max_score and feedback
together; the non-HR flows, by contrast, treat a `no_questions` reply
like success (see the counterexample). -/
theorem hr_finish_no_questions (qs : List Question) (ci : Nat) (ans : String)
    (held : Bool) (ins : Option (List Question)) (ivId : String) (data : EvalResponse) :
    (data.error = some "no_questions" →
      (hrFinishInterview qs ci ans held ins (fun _ => .ok data) ivId).interviewUpdate =
        none ∧
      (hrFinishInterview qs ci ans held ins (fun _ => .ok data) ivId).errorToast =
        some "No questions could be evaluated. Please try starting a new interview.") ∧
    (data.error ≠ some "no_questions" →
      (hrFinishInterview qs ci ans held ins (fun _ => .ok data) ivId).interviewUpdate =
        some { status := "completed", completedAtSet := true,
               total_score := data.totalScore, max_score := data.maxScore,
               feedback := data.feedback } ∧
      (hrFinishInterview qs ci ans held ins (fun _ => .ok data) ivId).successToast =
        true) := by
  constructor
  · intro hno
    simp only [hrFinishInterview]
    rw [if_pos hno]
    exact ⟨rfl, rfl⟩
  · intro hok
    simp only [hrFinishInterview]
    rw [if_neg hok]
    exact ⟨rfl, rfl⟩

def noQuestionsReply : EvalResponse :=
  { totalScore := 0, maxScore := 0, feedback := noQuestionsFeedback,
    error := some "no_questions" }

def okReply : EvalResponse :=
  { totalScore := 80, maxScore := 80, feedback := "Great job", error := none }

/-- Counterexample to C4 as stated: the non-HR `finishInterview` receives
the graceful `no_questions` reply as ordinary 2xx data and marks the
interview completed (with zero scores) instead of telling the user to
restart. -/
theorem page_finish_completes_on_no_questions :
    noQuestionsReply.error = some "no_questions" ∧
    (pageFinishInterview (.ok noQuestionsReply)).1 =
      some { status := "completed", completedAtSet := true, total_score := 0,
             max_score := 0, feedback := noQuestionsFeedback } ∧
    (pageFinishInterview (.ok noQuestionsReply)).2 = none := by
  decide

/-- Witness for the amended C4, at a `no_questions` reply and at an
ordinary scored reply. -/
theorem hr_finish_no_questions_witness :
    (noQuestionsReply.error = some "no_questions" ∧
      (hrFinishInterview generatedExample 0 "a" true none
          (fun _ => .ok noQuestionsReply) "iv1").interviewUpdate = none ∧
      (hrFinishInterview generatedExample 0 "a" true none
          (fun _ => .ok noQuestionsReply) "iv1").errorToast =
        some "No questions could be evaluated. Please try starting a new interview.") ∧
    (okReply.error ≠ some "no_questions" ∧
      (hrFinishInterview generatedExample 0 "a" true none
          (fun _ => .ok okReply) "iv1").interviewUpdate =
        some { status := "completed", completedAtSet := true, total_score := 80,
               max_score := 80, feedback := "Great job" } ∧
      (hrFinishInterview generatedExample 0 "a" true none
          (fun _ => .ok okReply) "iv1").successToast = true) :=
  ⟨⟨by decide,
      ((hr_finish_no_questions generatedExample 0 "a" true none "iv1"
          noQuestionsReply).1 (by decide)).1,
      ((hr_finish_no_questions generatedExample 0 "a" true none "iv1"
          noQuestionsReply).1 (by decide)).2⟩,
    ⟨by decide,
      ((hr_finish_no_questions generatedExample 0 "a" true none "iv1"
          okReply).2 (by decide)).1,
      ((hr_finish_no_questions generatedExample 0 "a" true none "iv1"
          okReply).2 (by decide)).2⟩⟩

/-- Claim C5 (amended): during the HR `finishInterview`, voice capture is
stopped unconditionally on entry, but the camera/microphone stream is
stopped only on the successful-completion path; when the evaluator call
fails or replies `no_questions`, the stream is left running (no exception
propagates in any case). -/
theorem hr_finish_media_release (qs : List Question) (ci : Nat) (ans : String)
    (held : Bool) (ins : Option (List Question)) (ivId : String)
    (reply : Except Unit EvalResponse) :
    (hrFinishInterview qs ci ans held ins (fun _ => reply) ivId).speechStopped = true ∧
    (∀ e, reply = .error e →
      (hrFinishInterview qs ci ans held ins (fun _ => reply) ivId).streamStopped =
        false) ∧
    (∀ data, reply = .ok data → data.error = some "no_questions" →
      (hrFinishInterview qs ci ans held ins (fun _ => reply) ivId).streamStopped =
        false) ∧
    (∀ data, reply = .ok data → data.error ≠ some "no_questions" →
      (hrFinishInterview qs ci ans held ins (fun _ => reply) ivId).streamStopped =
        held) ∧
    (hrFinishInterview qs ci ans held ins (fun _ => reply) ivId).exceptionPropagated =
      false := by
  refine ⟨?_, ?_, ?_, ?_, ?_⟩
  · cases reply with
    | error e => rfl
    | ok data =>
      simp only [hrFinishInterview]
      split <;> rfl
  · rintro e rfl
    rfl
  · rintro data rfl hno
    simp only [hrFinishInterview]
    rw [if_pos hno]
  · rintro data rfl hok
    simp only [hrFinishInterview]
    rw [if_neg hok]
  · cases reply with
    | error e => rfl
    | ok data =>
      simp only [hrFinishInterview]
      split <;> rfl

/-- Counterexample to C5 as stated: a finish run holding a live media
stream whose evaluator call fails leaves the stream running. -/
theorem stream_not_released_on_evaluator_failure :
    (hrFinishInterview generatedExample 0 "a" true none
        (fun _ => .error ()) "iv1").streamStopped = false ∧
    (hrFinishInterview generatedExample 0 "a" true none
        (fun _ => .error ()) "iv1").speechStopped = true ∧
    (hrFinishInterview generatedExample 0 "a" true none
        (fun _ => .error ()) "iv1").errorToast =
      some "Failed to submit interview. Please try again." := by
  decide

/-- Witness for the amended C5, at a failing evaluator call and at a
successful one. -/
theorem hr_finish_media_release_witness :
    ((Except.error () : Except Unit EvalResponse) = .error () ∧
      (hrFinishInterview generatedExample 0 "a" true none
          (fun _ => .error ()) "iv1").streamStopped = false) ∧
    ((Except.ok okReply : Except Unit EvalResponse) = .ok okReply ∧
      okReply.error ≠ some "no_questions" ∧
      (hrFinishInterview generatedExample 0 "a" true none
          (fun _ => .ok okReply) "iv1").streamStopped = true) :=
  ⟨⟨rfl,
      (hr_finish_media_release generatedExample 0 "a" true none "iv1"
          (.error ())).2.1 () rfl⟩,
    ⟨rfl, by decide,
      (hr_finish_media_release generatedExample 0 "a" true none "iv1"
          (.ok okReply)).2.2.2.1 okReply rfl (by decide)⟩⟩

def c1Questions : List Question :=
  [ { id := some "temp-0", question_type := "hr", difficulty := "medium",
      question_text := "Q0", expected_answer := some "E0", user_answer := some "A0" },
    { id := some "temp-1", question_type := "hr", difficulty := "medium",
      question_text := "Q1", expected_answer := some "E1", user_answer := some "A1" },
    { id := some "temp-2", question_type := "hr", difficulty := "medium",
      question_text := "Q2", expected_answer := some "E2", user_answer := some "A2" },
    { id := some "temp-3", question_type := "hr", difficulty := "medium",
      question_text := "Q3", expected_answer := some "E3", user_answer := none } ]

/-- The finish run of the C1 scenario: a 4-question HR interview whose
questions all carry placeholder identities, all answered (the fourth
answer still in the buffer), whose last-chance batched insert fails
(`insertReply = none`), calling the real `evaluate-interview` function
over a store holding no rows for the interview. -/
def c1Outcome : FinishOutcome :=
  hrFinishInterview c1Questions 3 "A3" true none
    (fun req => .ok (evaluateInterview req (fun _ => [])
      (fun _ => some { score := 100, is_correct := true }) "overall feedback"))
    "iv1"

/-- Claim C1 fails on the code: the `questionsData` fallback payload the
HR page assembles does carry the full finalized in-memory view (all four
answers), and no exception propagates — but `evaluate-interview` never
reads `questionsData`, re-fetches by interview id, finds no rows, and
replies `no_questions`; so `finish()` produces no evaluation at all, the
interview is not completed, and the user is told to restart. -/
theorem evaluator_ignores_fallback_payload :
    c1Outcome.payload.map EvalPayloadQuestion.user_answer = ["A0", "A1", "A2", "A3"] ∧
    c1Outcome.insertAttempted = true ∧
    c1Outcome.interviewUpdate = none ∧
    c1Outcome.errorToast =
      some "No questions could be evaluated. Please try starting a new interview." ∧
    c1Outcome.exceptionPropagated = false := by
  decide

end InterviewAce
